import Mathlib

/-! happy-shot: the object-store layer of `s3/main.go`

A shallow embedding of `UploadImage`, `GetPresignedURLs`, `DownloadAllImages` and of the
`GET /images` and `GET /download` handlers of `s3/main.go`.

* The remote object store (the minio client) is an environment: `Env` gives the outcome of
  each read call, `World` is a store state with fault injection for the calls that mutate.
* `archive/zip`, `io.Copy`, `encoding/json` and `defer` follow the Go semantics the program
  relies on; the zip buffer is kept at the level of archive entries, not of deflate bytes.
* Every operation records the calls it makes in a trace of `Event`s.
-/

set_option autoImplicit false

namespace HappyShot

/-! ## Values -/

deriving instance DecidableEq for Except

/-- A byte string. -/
abbrev Bytes := List (Fin 256)

/-- An error value returned by a call of the object-store client. -/
structure StoreError where
  message : String
  deriving DecidableEq, Repr

/-- A Go `error` as this program meets it. -/
inductive GoError where
  /-- Built by `fmt.Errorf(msg)` in this program. -/
  | errorf (msg : String)
  /-- Returned by a call of the minio client, or by a read of a content stream. -/
  | store (e : StoreError)
  /-- Returned by `archive/zip`. -/
  | zip (msg : String)
  deriving DecidableEq, Repr

/-- The method `err.Error()`. -/
def GoError.Error : GoError → String
  | .errorf msg => msg
  | .store e => e.message
  | .zip msg => msg

/-- A descriptor delivered by the listing channel (`minio.ObjectInfo`): the listing reports
a failure as a descriptor whose `Err` field is set. -/
structure ObjectInfo where
  Key : String
  Err : Option StoreError
  deriving DecidableEq, Repr

/-- A content stream (`*minio.Object`): the bytes its reads deliver, and the error that ends
the reads (`none` for `io.EOF`). -/
structure Stream where
  data : Bytes
  readErr : Option StoreError
  deriving DecidableEq, Repr

/-- The calls the program makes, in the order it makes them. -/
inductive Event where
  | bucketExists (bucket : String)
  | makeBucket (bucket : String)
  | putObject (bucket key : String)
  | listObjects (bucket : String)
  | getObject (bucket key : String)
  | presign (bucket key : String)
  | zipCreate (name : String)
  | copy (stream : Nat)
  | zipClose
  | streamClose (stream : Nat)
  deriving DecidableEq, Repr

/-- The store calls that change the store. -/
def Event.mutates : Event → Bool
  | .makeBucket _ => true
  | .putObject _ _ => true
  | _ => false

/-- The events that are `file.Close()` of a content stream. -/
def Event.isStreamClose : Event → Bool
  | .streamClose _ => true
  | _ => false

/-- The events that are a list or get call against the store. -/
def Event.isListOrGet : Event → Bool
  | .listObjects _ => true
  | .getObject _ _ => true
  | _ => false

/-! ## The object store seen by the read operations -/

/-- The outcome of each read call of the minio client. -/
structure Env where
  /-- The call `client.BucketExists(ctx, bucket)`. -/
  bucketExists : String → Except StoreError Bool
  /-- The descriptors that `client.ListObjects(ctx, bucket, opts)` delivers on its channel. -/
  listObjects : String → List ObjectInfo
  /-- The call `client.GetObject(ctx, bucket, key, opts)`. -/
  getObject : String → String → Except StoreError Stream
  /-- The call `client.PresignedGetObject(ctx, bucket, key, 24h, nil)`, as `url.String()`. -/
  presignedGetObject : String → String → Except StoreError String

/-! ## `archive/zip` over a `bytes.Buffer` -/

/-- One entry of the archive: its name and the (uncompressed) bytes written to it. -/
structure Entry where
  name : String
  data : Bytes
  deriving DecidableEq, Repr

/-- The content of the `bytes.Buffer` under the zip writer: the entries written so far and
whether the central directory has been written, which seals the archive. -/
structure Buffer where
  entries : List Entry
  finalized : Bool
  deriving DecidableEq, Repr

/-- The writer `zip.Writer`: the buffer it writes to and its `closed` flag. -/
structure ZipWriter where
  buf : Buffer
  closed : Bool
  deriving DecidableEq, Repr

/-- The writer handed out by `Create`: `dirWriter` for a name with a trailing slash,
`fileWriter` otherwise. -/
inductive EntryWriter where
  | dirWriter
  | fileWriter
  deriving DecidableEq, Repr

/-- The calls `new(bytes.Buffer)` and `zip.NewWriter(buffer)`. -/
def NewWriter : ZipWriter :=
  { buf := { entries := [], finalized := false }, closed := false }

/-- The test `strings.HasSuffix(name, "/")`. -/
def hasSlashSuffix (name : String) : Bool :=
  name.data.getLast? == some '/'

/-- The largest name `writeHeader` accepts, in bytes. -/
def uint16max : Nat := 65535

/-- The method `(*zip.Writer).Create(name)`: a header is written for a new entry; a name
longer than `uint16max` bytes is refused; a trailing slash makes a directory entry. -/
def ZipWriter.Create (w : ZipWriter) (name : String) : Except GoError (ZipWriter × EntryWriter) :=
  if name.utf8ByteSize > uint16max then
    .error (.zip "zip: FileHeader.Name too long")
  else
    .ok ({ w with buf := { w.buf with entries := w.buf.entries ++ [{ name := name, data := [] }] } },
         if hasSlashSuffix name then .dirWriter else .fileWriter)

/-- The bytes `p` appended to the last entry. -/
def appendLast : List Entry → Bytes → List Entry
  | [], _ => []
  | [e], p => [{ e with data := e.data ++ p }]
  | e :: e2 :: es, p => e :: appendLast (e2 :: es) p

/-- The method `Write(p)` of the writer of the current entry: a directory accepts only the
empty write. -/
def EntryWriter.Write (zipFile : EntryWriter) (w : ZipWriter) (p : Bytes) : Except GoError ZipWriter :=
  match zipFile with
  | .dirWriter => if p = [] then .ok w else .error (.zip "zip: write to directory")
  | .fileWriter => .ok { w with buf := { w.buf with entries := appendLast w.buf.entries p } }

/-- The method `(*zip.Writer).Close()`: the first call writes the central directory, a
later call writes nothing and reports an error. -/
def ZipWriter.Close (w : ZipWriter) : ZipWriter × Option GoError :=
  if w.closed then (w, some (.zip "zip: writer closed twice"))
  else ({ buf := { w.buf with finalized := true }, closed := true }, none)

/-- The call `io.Copy(zipFile, file)`: what the stream delivers is written to the entry,
then the error that ended the reads is returned (none at `io.EOF`). -/
def ioCopy (w : ZipWriter) (zipFile : EntryWriter) (file : Stream) : ZipWriter × Option GoError :=
  if file.data = [] then (w, file.readErr.map .store)
  else
    match zipFile.Write w file.data with
    | .error e => (w, some e)
    | .ok w2 => (w2, file.readErr.map .store)

/-! ## `DownloadAllImages` -/

/-- The local state of a run of `DownloadAllImages`: the zip writer, the streams whose
`file.Close()` is deferred (oldest first) and the calls made so far. -/
structure Frame where
  zipWriter : ZipWriter
  deferred : List Nat
  trace : List Event
  deriving DecidableEq, Repr

/-- What `DownloadAllImages` returns, with the calls it made. -/
structure Download where
  buffer : Option Buffer
  err : Option GoError
  trace : List Event
  deriving DecidableEq, Repr

/-- One pass through the body of `for object := range objects` in `DownloadAllImages`: the
frame reached, and the error of the `return nil, err` that leaves the function, if any. -/
def loopBody (env : Env) (bucket : String) (object : ObjectInfo) (fr : Frame) :
    Frame × Option GoError :=
  let fr1 := { fr with trace := fr.trace ++ [Event.getObject bucket object.Key] }
  match env.getObject bucket object.Key with
  | .error e => (fr1, some (.store e))
  | .ok file =>
    let id := fr1.deferred.length
    let fr2 := { fr1 with deferred := fr1.deferred ++ [id] }
    let fr3 := { fr2 with trace := fr2.trace ++ [Event.zipCreate object.Key] }
    match fr3.zipWriter.Create object.Key with
    | .error e => (fr3, some e)
    | .ok (w, zipFile) =>
      let fr4 := { fr3 with zipWriter := w, trace := fr3.trace ++ [Event.copy id] }
      match ioCopy fr4.zipWriter zipFile file with
      | (w2, some e) => ({ fr4 with zipWriter := w2 }, some e)
      | (w2, none) => ({ fr4 with zipWriter := w2 }, none)

/-- The loop `for object := range objects` of `DownloadAllImages` over the descriptors the
listing channel delivers. -/
def downloadLoop (env : Env) (bucket : String) : List ObjectInfo → Frame → Frame × Option GoError
  | [], fr => (fr, none)
  | object :: rest, fr =>
    match loopBody env bucket object fr with
    | (fr1, some e) => (fr1, some e)
    | (fr1, none) => downloadLoop env bucket rest fr1

/-- The deferred calls run at a return, last deferred first: `file.Close()` of every opened
stream, then `zipWriter.Close()`, whose error is dropped. -/
def runDeferred (fr : Frame) : Frame :=
  { zipWriter := fr.zipWriter.Close.1,
    deferred := [],
    trace := fr.trace ++ fr.deferred.reverse.map Event.streamClose ++ [Event.zipClose] }

/-- The method `(*MinioClient).DownloadAllImages(bucket)`. The buffer returned is the one
the zip writer writes to, so its content is the content after the deferred calls. -/
def DownloadAllImages (env : Env) (bucket : String) : Download :=
  let notFound : Download :=
    { buffer := none, err := some (.errorf "bucket not found"), trace := [.bucketExists bucket] }
  match env.bucketExists bucket with
  | .error _ => notFound
  | .ok false => notFound
  | .ok true =>
    let fr0 : Frame :=
      { zipWriter := NewWriter, deferred := [],
        trace := [.bucketExists bucket, .listObjects bucket] }
    match downloadLoop env bucket (env.listObjects bucket) fr0 with
    | (fr, some e) => { buffer := none, err := some e, trace := (runDeferred fr).trace }
    | (fr, none) =>
      let fr1 := { fr with trace := fr.trace ++ [Event.zipClose] }
      match fr1.zipWriter.Close with
      | (w, some e) =>
        { buffer := none, err := some e, trace := (runDeferred { fr1 with zipWriter := w }).trace }
      | (w, none) =>
        let fr2 := runDeferred { fr1 with zipWriter := w }
        { buffer := some fr2.zipWriter.buf, err := none, trace := fr2.trace }

/-! ## `GetPresignedURLs` -/

/-- The call `append(urls, url)` on a `[]string`, whose nil value is `none`. -/
def goAppend : Option (List String) → String → Option (List String)
  | none, url => some [url]
  | some urls, url => some (urls ++ [url])

/-- What `GetPresignedURLs` returns, with the calls it made. -/
structure Presigned where
  urls : Option (List String)
  err : Option GoError
  trace : List Event
  deriving DecidableEq, Repr

/-- The loop `for object := range objects` of `GetPresignedURLs`. -/
def presignLoop (env : Env) (bucket : String) :
    List ObjectInfo → Option (List String) → List Event → Presigned
  | [], urls, tr => { urls := urls, err := none, trace := tr }
  | object :: rest, urls, tr =>
    let tr1 := tr ++ [Event.presign bucket object.Key]
    match env.presignedGetObject bucket object.Key with
    | .error e => { urls := none, err := some (.store e), trace := tr1 }
    | .ok url => presignLoop env bucket rest (goAppend urls url) tr1

/-- The method `(*MinioClient).GetPresignedURLs(bucket)`; `var urls []string` is nil. -/
def GetPresignedURLs (env : Env) (bucket : String) : Presigned :=
  presignLoop env bucket (env.listObjects bucket) none [Event.listObjects bucket]

/-! ## The object store as a state -/

/-- The failures the store injects into the calls made on it. -/
structure Faults where
  bucketExists : String → Option StoreError
  makeBucket : String → Option StoreError
  putObject : String → String → Option StoreError
  /-- The listing breaks after delivering this many descriptors. -/
  listObjects : String → Option (Nat × StoreError)
  /-- The reads of a content stream end with this error. -/
  readObject : String → String → Option StoreError
  presign : String → String → Option StoreError

/-- The object store: its buckets, each a list of objects (key, content) whose order has no
meaning, the failures it injects, the URL it signs for a bucket and key, and the order in
which a listing delivers its entries, which is whatever the store returns. -/
structure World where
  buckets : List (String × List (String × Bytes))
  faults : Faults
  sign : String → String → String
  order : List String → List String
  order_perm : ∀ entries : List String, (order entries).Perm entries

/-- The objects of the bucket `name`, if there is such a bucket. -/
def findBucket (name : String) : List (String × List (String × Bytes)) → Option (List (String × Bytes))
  | [] => none
  | (n, objs) :: rest => if n = name then some objs else findBucket name rest

/-- The content stored under `key`, if any. -/
def findObject (key : String) : List (String × Bytes) → Option Bytes
  | [] => none
  | (k, c) :: rest => if k = key then some c else findObject key rest

/-- The objects of a bucket of the store. -/
def World.objects (w : World) (bucket : String) : Option (List (String × Bytes)) :=
  findBucket bucket w.buckets

/-- The content the store holds under `key` in `bucket`. -/
def World.content (w : World) (bucket key : String) : Option Bytes :=
  match w.objects bucket with
  | none => none
  | some objs => findObject key objs

/-- The store call `BucketExists`. -/
def World.BucketExists (w : World) (bucket : String) : Except StoreError Bool :=
  match w.faults.bucketExists bucket with
  | some e => .error e
  | none => .ok (w.objects bucket).isSome

/-- The store call `MakeBucket`: a new, empty bucket. -/
def World.MakeBucket (w : World) (bucket : String) : Except StoreError World :=
  match w.faults.makeBucket bucket with
  | some e => .error e
  | none =>
    if (w.objects bucket).isSome then .error ⟨"BucketAlreadyOwnedByYou"⟩
    else .ok { w with buckets := w.buckets ++ [(bucket, [])] }

/-- The bytes a put of declared size `fileSize` sends from the reader `file`: all of them
for a negative size, the first `fileSize` otherwise, none if the reader is too short. -/
def sent (file : Bytes) (fileSize : Int) : Option Bytes :=
  if fileSize < 0 then some file
  else if fileSize.toNat ≤ file.length then some (file.take fileSize.toNat)
  else none

/-- The objects of a bucket after `content` is stored under `key`: a key is held once. The
place of the object in the list is not its place in a listing, which `World.order` gives. -/
def putIn (key : String) (content : Bytes) (objs : List (String × Bytes)) : List (String × Bytes) :=
  objs.filter (fun o => o.1 ≠ key) ++ [(key, content)]

/-- The store call `PutObject`; the client refuses an empty object name. -/
def World.PutObject (w : World) (bucket key : String) (file : Bytes) (fileSize : Int) :
    Except StoreError World :=
  if key = "" then .error ⟨"Object name cannot be empty"⟩
  else
    match w.faults.putObject bucket key with
    | some e => .error e
    | none =>
      match w.objects bucket, sent file fileSize with
      | none, _ => .error ⟨"NoSuchBucket"⟩
      | some _, none => .error ⟨"unexpected EOF"⟩
      | some _, some content =>
        .ok { w with buckets :=
                w.buckets.map (fun p => if p.1 = bucket then (p.1, putIn key content p.2) else p) }

/-- The descriptor of an object of a listing that did not fail. -/
def descriptor (key : String) : ObjectInfo := { Key := key, Err := none }

/-- The order of keys by code points, which is their order by bytes. -/
def keyOrder (a b : String) : Prop :=
  a.data.map Char.toNat ≤ b.data.map Char.toNat

instance : DecidableRel keyOrder := fun a b =>
  inferInstanceAs (Decidable (a.data.map Char.toNat ≤ b.data.map Char.toNat))

/-- The entry under which a listing that is not recursive shows a key: the key itself, or,
for a key with a `/`, its common prefix, which ends at the first `/`. -/
def listedAs (key : String) : String :=
  if '/' ∈ key.data then String.mk (key.data.takeWhile (fun ch => ch ≠ '/') ++ ['/'])
  else key

/-- The keys a listing of `ListObjects(ctx, bucket, minio.ListObjectsOptions{})` delivers for
the objects of a bucket: the listing is not recursive and delimited at `/`, so it delivers
each key without a `/` and each common prefix once, in the order of the store. -/
def World.listing (w : World) (objs : List (String × Bytes)) : List String :=
  w.order ((objs.map fun o => listedAs o.1).dedup)

/-- The read calls on a store state. The listing of a missing bucket, and a listing that
breaks, deliver a descriptor with `Err` set and an empty key; the client refuses an empty
object name before any request. -/
def World.env (w : World) : Env where
  bucketExists := w.BucketExists
  listObjects := fun bucket =>
    match w.objects bucket with
    | none => [{ Key := "", Err := some ⟨"NoSuchBucket"⟩ }]
    | some objs =>
      match w.faults.listObjects bucket with
      | none => (w.listing objs).map descriptor
      | some (m, e) => ((w.listing objs).take m).map descriptor ++ [{ Key := "", Err := some e }]
  getObject := fun bucket key =>
    if key = "" then .error ⟨"Object name cannot be empty"⟩
    else
      match w.faults.readObject bucket key, w.content bucket key with
      | some e, _ => .ok { data := [], readErr := some e }
      | none, none => .ok { data := [], readErr := some ⟨"NoSuchKey"⟩ }
      | none, some c => .ok { data := c, readErr := none }
  presignedGetObject := fun bucket key =>
    if key = "" then .error ⟨"Object name cannot be empty"⟩
    else
      match w.faults.presign bucket key with
      | some e => .error e
      | none => .ok (w.sign bucket key)

/-! ## `UploadImage` -/

/-- What `UploadImage` returns, with the store it leaves and the calls it made. -/
structure Upload where
  err : Option GoError
  world : World
  trace : List Event

/-- The call `PutObject` that ends `UploadImage`, and its `return err`. -/
def putStep (w : World) (bucket objectName : String) (file : Bytes) (fileSize : Int)
    (tr : List Event) : Upload :=
  match w.PutObject bucket objectName file fileSize with
  | .error e => { err := some (.store e), world := w, trace := tr ++ [Event.putObject bucket objectName] }
  | .ok w2 => { err := none, world := w2, trace := tr ++ [Event.putObject bucket objectName] }

/-- The method `(*MinioClient).UploadImage(bucket, objectName, file, fileSize)`. -/
def UploadImage (w : World) (bucket objectName : String) (file : Bytes) (fileSize : Int) : Upload :=
  match w.BucketExists bucket with
  | .error e => { err := some (.store e), world := w, trace := [Event.bucketExists bucket] }
  | .ok false =>
    match w.MakeBucket bucket with
    | .error e =>
      { err := some (.store e), world := w,
        trace := [Event.bucketExists bucket, Event.makeBucket bucket] }
    | .ok w1 =>
      putStep w1 bucket objectName file fileSize [Event.bucketExists bucket, Event.makeBucket bucket]
  | .ok true => putStep w bucket objectName file fileSize [Event.bucketExists bucket]

/-! ## The HTTP handlers -/

/-- A JSON value. -/
inductive JSON where
  | null
  | string (s : String)
  | array (items : List JSON)
  | object (members : List (String × JSON))

/-- The JSON encoding of a `[]string`: a nil slice encodes as `null`. -/
def marshalStrings : Option (List String) → JSON
  | none => .null
  | some urls => .array (urls.map .string)

/-- The body of a response: a JSON document or the bytes of a buffer. -/
inductive Body where
  | json (v : JSON)
  | data (b : Buffer)

/-- An HTTP response: status, header and body. -/
structure Response where
  status : Nat
  header : List (String × String)
  body : Option Body

/-- The call `Header().Set(key, value)`. -/
def setHeader (h : List (String × String)) (key value : String) : List (String × String) :=
  h.filter (fun p => p.1 ≠ key) ++ [(key, value)]

/-- The call `Header().Get(key)`. -/
def getHeader (h : List (String × String)) (key : String) : Option String :=
  match h.find? (fun p => p.1 = key) with
  | none => none
  | some p => some p.2

/-- The response a handler starts from: the default status of gin, and the header set by the
middleware that runs before every handler. -/
def start : Response :=
  { status := 200,
    header :=
      setHeader (setHeader (setHeader (setHeader [] "Access-Control-Allow-Origin" "*")
        "Access-Control-Allow-Methods" "*") "Access-Control-Allow-Headers" "*")
        "Access-Control-Allow-Credentials" "true",
    body := none }

/-- The content type of a render is written only when the header has none. -/
def writeContentType (h : List (String × String)) (value : String) : List (String × String) :=
  match getHeader h "Content-Type" with
  | none => setHeader h "Content-Type" value
  | some _ => h

/-- The call `c.JSON(code, obj)`. -/
def ginJSON (r : Response) (code : Nat) (obj : JSON) : Response :=
  { status := code,
    header := writeContentType r.header "application/json; charset=utf-8",
    body := some (.json obj) }

/-- The call `c.Data(code, contentType, data)`. -/
def ginData (r : Response) (code : Nat) (contentType : String) (data : Buffer) : Response :=
  { status := code, header := writeContentType r.header contentType, body := some (.data data) }

/-- The constant `http.StatusOK`. -/
def StatusOK : Nat := 200

/-- The constant `http.StatusInternalServerError`. -/
def StatusInternalServerError : Nat := 500

/-- The value `gin.H{"error": err.Error()}`. -/
def errorBody (err : GoError) : JSON := .object [("error", .string err.Error)]

/-- The handler of `GET /images` for the query parameter `bucket`; the encoder writes the
document (and a newline) with the status the response starts with. -/
def getImages (env : Env) (bucket : String) : Response :=
  let res := GetPresignedURLs env bucket
  match res.err with
  | some err => ginJSON start StatusInternalServerError (errorBody err)
  | none =>
    { start with
      header := setHeader start.header "Content-Type" "application/json",
      body := some (.json (.object [("images", marshalStrings res.urls)])) }

/-- The handler of `GET /download` for the query parameter `bucket`. A nil buffer without
an error, which `DownloadAllImages` does not return, would make `zipBuffer.Bytes()` fail
after the header is set, and the recovery of gin answer with status 500. -/
def getDownload (env : Env) (bucket : String) : Response :=
  let res := DownloadAllImages env bucket
  match res.err with
  | some err => ginJSON start StatusInternalServerError (errorBody err)
  | none =>
    let r1 : Response :=
      { start with
        header := setHeader start.header "Content-Disposition" "attachment; filename=images.zip" }
    match res.buffer with
    | some zipBuffer => ginData r1 StatusOK "application/zip" zipBuffer
    | none => { r1 with status := StatusInternalServerError }

/-! ## What the download loop is compared with -/

/-- The error that leaves the loop of `DownloadAllImages` at a descriptor: that of opening
the stream, of creating the entry, or of copying the content, in this order. -/
def stepError (env : Env) (bucket : String) (object : ObjectInfo) : Option GoError :=
  match env.getObject bucket object.Key with
  | .error e => some (.store e)
  | .ok file =>
    match NewWriter.Create object.Key with
    | .error e => some e
    | .ok (w, zipFile) => (ioCopy w zipFile file).2

/-- The entries of a pass through the whole listing: one for each descriptor, named by its
key and holding what its stream delivers. -/
def readAll (env : Env) (bucket : String) (objects : List ObjectInfo) : List Entry :=
  objects.map fun object =>
    match env.getObject bucket object.Key with
    | .ok file => { name := object.Key, data := file.data }
    | .error _ => { name := object.Key, data := [] }

/-- The calls of a pass through the whole listing, the first stream opened being number `n`. -/
def loopTrace (bucket : String) : List ObjectInfo → Nat → List Event
  | [], _ => []
  | object :: rest, n =>
    Event.getObject bucket object.Key :: Event.zipCreate object.Key :: Event.copy n ::
      loopTrace bucket rest (n + 1)

/-! ## Concrete stores -/

/-- A store with one bucket, `photos`, holding `a.jpg` and `b.png`; no call fails. -/
def envPhotos : Env where
  bucketExists := fun bucket => .ok (bucket = "photos")
  listObjects := fun bucket =>
    if bucket = "photos" then [descriptor "a.jpg", descriptor "b.png"] else []
  getObject := fun _ key =>
    if key = "a.jpg" then .ok { data := [1, 2], readErr := none }
    else if key = "b.png" then .ok { data := [3], readErr := none }
    else .ok { data := [], readErr := some ⟨"NoSuchKey"⟩ }
  presignedGetObject := fun bucket key => .ok ("https://store/" ++ bucket ++ "/" ++ key)

/-- A store whose bucket `photos` holds `a.jpg` and an object `d/` of one byte; every read
succeeds. -/
def envDir : Env where
  bucketExists := fun bucket => .ok (bucket = "photos")
  listObjects := fun bucket =>
    if bucket = "photos" then [descriptor "a.jpg", descriptor "d/"] else []
  getObject := fun _ key =>
    if key = "a.jpg" then .ok { data := [1, 2], readErr := none }
    else if key = "d/" then .ok { data := [7], readErr := none }
    else .ok { data := [], readErr := some ⟨"NoSuchKey"⟩ }
  presignedGetObject := fun bucket key => .ok ("https://store/" ++ bucket ++ "/" ++ key)

/-- A store that cannot be reached: the existence check fails. -/
def envDown : Env where
  bucketExists := fun _ => .error ⟨"connection refused"⟩
  listObjects := fun _ => [{ Key := "", Err := some ⟨"connection refused"⟩ }]
  getObject := fun _ _ => .error ⟨"connection refused"⟩
  presignedGetObject := fun _ _ => .error ⟨"connection refused"⟩

/-- A store whose bucket `photos` exists and holds no object. -/
def envEmpty : Env where
  bucketExists := fun bucket => .ok (bucket = "photos")
  listObjects := fun _ => []
  getObject := fun _ _ => .ok { data := [], readErr := some ⟨"NoSuchKey"⟩ }
  presignedGetObject := fun bucket key => .ok ("https://store/" ++ bucket ++ "/" ++ key)

/-- No injected failure. -/
def noFaults : Faults where
  bucketExists := fun _ => none
  makeBucket := fun _ => none
  putObject := fun _ _ => none
  listObjects := fun _ => none
  readObject := fun _ _ => none
  presign := fun _ _ => none

/-- A store state with one bucket, `photos`, holding `a.jpg` and `b.png`, that lists in the
order of the keys. -/
def worldPhotos : World where
  buckets := [("photos", [("a.jpg", [1, 2]), ("b.png", [3])])]
  faults := noFaults
  sign := fun bucket key => "https://store/" ++ bucket ++ "/" ++ key
  order := List.insertionSort keyOrder
  order_perm := List.perm_insertionSort keyOrder

/-- The state `worldPhotos` with a listing of `photos` that breaks after one descriptor. -/
def worldBroken : World :=
  { worldPhotos with
    faults := { noFaults with
      listObjects := fun bucket =>
        if bucket = "photos" then some (1, ⟨"connection reset"⟩) else none } }

/-- The state `worldPhotos` with a signing that fails. -/
def worldUnsigned : World :=
  { worldPhotos with
    faults := { noFaults with presign := fun _ _ => some ⟨"connection refused"⟩ } }

/-- The state `worldPhotos` with one more object in `photos`, under the key `x/b.jpg`. -/
def worldNested : World :=
  { worldPhotos with
    buckets := [("photos", [("a.jpg", [1, 2]), ("b.png", [3]), ("x/b.jpg", [4])])] }

/-! ## The zip writer and the loop body -/

/-- Appending to the last entry of a list that ends with `e`. -/
theorem appendLast_concat (es : List Entry) (e : Entry) (p : Bytes) :
    appendLast (es ++ [e]) p = es ++ [{ e with data := e.data ++ p }] := by
  induction es with
  | nil => rfl
  | cons a es ih =>
    cases es with
    | nil => rfl
    | cons a2 es2 =>
      simp only [List.cons_append] at ih ⊢
      simp only [appendLast, ih]

/-- Whether `Create` refuses a name does not depend on the state of the writer. -/
theorem Create_error_iff (w : ZipWriter) (name : String) (e : GoError) :
    w.Create name = .error e ↔ NewWriter.Create name = .error e := by
  unfold ZipWriter.Create
  by_cases h : name.utf8ByteSize > uint16max <;> simp [h]

/-- What a successful `Create` returns. -/
theorem Create_ok (w w2 : ZipWriter) (name : String) (zipFile : EntryWriter)
    (h : w.Create name = .ok (w2, zipFile)) :
    w2 = { buf := { entries := w.buf.entries ++ [{ name := name, data := [] }],
                    finalized := w.buf.finalized },
           closed := w.closed } ∧
    zipFile = (if hasSlashSuffix name then .dirWriter else .fileWriter) ∧
    name.utf8ByteSize ≤ uint16max := by
  unfold ZipWriter.Create at h
  by_cases hn : name.utf8ByteSize > uint16max
  · simp [hn] at h
  · simp only [hn, if_false] at h
    injection h with h
    injection h with h1 h2
    exact ⟨h1.symm, h2.symm, Nat.le_of_not_gt hn⟩

/-- The error of a copy does not depend on the state of the writer. -/
theorem ioCopy_error (w w2 : ZipWriter) (zipFile : EntryWriter) (file : Stream) :
    (ioCopy w zipFile file).2 = (ioCopy w2 zipFile file).2 := by
  unfold ioCopy
  by_cases hd : file.data = []
  · simp [hd]
  · cases zipFile <;> simp [hd, EntryWriter.Write]

/-- A copy that succeeds into the entry just created leaves it holding the content. -/
theorem ioCopy_ok (w : ZipWriter) (es : List Entry) (name : String) (file : Stream)
    (zipFile : EntryWriter) (w2 : ZipWriter)
    (hw : w.buf.entries = es ++ [{ name := name, data := [] }])
    (h : ioCopy w zipFile file = (w2, none)) :
    w2 = { buf := { entries := es ++ [{ name := name, data := file.data }],
                    finalized := w.buf.finalized },
           closed := w.closed } := by
  unfold ioCopy at h
  by_cases hd : file.data = []
  · simp only [hd, if_true] at h
    injection h with h1 _
    subst h1
    cases w with
    | mk buf closed =>
      cases buf with
      | mk entries finalized =>
        simp only at hw
        simp [hw, hd]
  · simp only [hd, if_false] at h
    cases zipFile with
    | dirWriter => simp [EntryWriter.Write, hd] at h
    | fileWriter =>
      simp only [EntryWriter.Write] at h
      injection h with h1 _
      subst h1
      simp [hw, appendLast_concat]

/-- The error that leaves a pass through the loop body is the error of the step. -/
theorem loopBody_error (env : Env) (bucket : String) (object : ObjectInfo) (fr : Frame) :
    (loopBody env bucket object fr).2 = stepError env bucket object := by
  unfold loopBody stepError
  cases hget : env.getObject bucket object.Key with
  | error e => rfl
  | ok file =>
    simp only
    cases hc : NewWriter.Create object.Key with
    | error e =>
      have := (Create_error_iff fr.zipWriter object.Key e).2 hc
      simp only [this]
    | ok p =>
      obtain ⟨w0, zf⟩ := p
      have hzf := (Create_ok _ _ _ _ hc).2.1
      have hle := (Create_ok _ _ _ _ hc).2.2
      have hfr : fr.zipWriter.Create object.Key =
          .ok ({ fr.zipWriter with buf := { fr.zipWriter.buf with
                  entries := fr.zipWriter.buf.entries ++ [{ name := object.Key, data := [] }] } }, zf) := by
        unfold ZipWriter.Create
        simp [Nat.not_lt.2 hle, hzf]
      simp only [hfr]
      rw [ioCopy_error _ w0]
      cases hcp : ioCopy w0 zf file with
      | mk w2 oe =>
        cases hcp2 : ioCopy { fr.zipWriter with buf := { fr.zipWriter.buf with
                  entries := fr.zipWriter.buf.entries ++ [{ name := object.Key, data := [] }] } } zf file with
        | mk w3 oe3 =>
          have h3 : oe3 = oe := by
            have := ioCopy_error { fr.zipWriter with buf := { fr.zipWriter.buf with
                  entries := fr.zipWriter.buf.entries ++ [{ name := object.Key, data := [] }] } } w0 zf file
            rw [hcp, hcp2] at this
            exact this
          subst h3
          cases oe3 <;> rfl

/-- The frame a pass through the loop body reaches when no step fails. -/
theorem loopBody_ok (env : Env) (bucket : String) (object : ObjectInfo) (fr fr2 : Frame)
    (h : loopBody env bucket object fr = (fr2, none)) :
    ∃ file, env.getObject bucket object.Key = .ok file ∧
      fr2 = { zipWriter :=
                { buf := { entries := fr.zipWriter.buf.entries ++
                              [{ name := object.Key, data := file.data }],
                           finalized := fr.zipWriter.buf.finalized },
                  closed := fr.zipWriter.closed },
              deferred := fr.deferred ++ [fr.deferred.length],
              trace := fr.trace ++ [Event.getObject bucket object.Key,
                Event.zipCreate object.Key, Event.copy fr.deferred.length] } := by
  unfold loopBody at h
  cases hget : env.getObject bucket object.Key with
  | error e => simp [hget] at h
  | ok file =>
    refine ⟨file, rfl, ?_⟩
    simp only [hget] at h
    cases hc : fr.zipWriter.Create object.Key with
    | error e => simp [hc] at h
    | ok p =>
      obtain ⟨w, zf⟩ := p
      simp only [hc] at h
      obtain ⟨hw, -, -⟩ := Create_ok _ _ _ _ hc
      cases hcp : ioCopy w zf file with
      | mk w2 oe =>
        simp only [hcp] at h
        cases oe with
        | some e => simp at h
        | none =>
          simp only [Prod.mk.injEq, and_true] at h
          have hw2 := ioCopy_ok w fr.zipWriter.buf.entries object.Key file zf w2 (by rw [hw]) hcp
          rw [← h, hw2, hw]
          simp

/-- The loop runs to its end exactly when no step fails. -/
theorem downloadLoop_none_iff (env : Env) (bucket : String) (objects : List ObjectInfo) :
    ∀ fr : Frame, (downloadLoop env bucket objects fr).2 = none ↔
      ∀ object ∈ objects, stepError env bucket object = none := by
  induction objects with
  | nil => intro fr; simp [downloadLoop]
  | cons object rest ih =>
    intro fr
    have herr := loopBody_error env bucket object fr
    unfold downloadLoop
    cases hb : loopBody env bucket object fr with
    | mk fr1 oe =>
      rw [hb] at herr
      simp only at herr
      cases oe with
      | some e => simp [← herr]
      | none => simp [← herr, ih fr1]

/-- The frame the loop reaches when it runs to its end. -/
theorem downloadLoop_ok (env : Env) (bucket : String) (objects : List ObjectInfo) :
    ∀ fr fr2 : Frame, downloadLoop env bucket objects fr = (fr2, none) →
      fr2 = { zipWriter :=
                { buf := { entries := fr.zipWriter.buf.entries ++ readAll env bucket objects,
                           finalized := fr.zipWriter.buf.finalized },
                  closed := fr.zipWriter.closed },
              deferred := fr.deferred ++ List.range' fr.deferred.length objects.length,
              trace := fr.trace ++ loopTrace bucket objects fr.deferred.length } := by
  induction objects with
  | nil =>
    intro fr fr2 h
    simp only [downloadLoop, Prod.mk.injEq, and_true] at h
    subst h
    simp [readAll, loopTrace]
  | cons object rest ih =>
    intro fr fr2 h
    unfold downloadLoop at h
    cases hb : loopBody env bucket object fr with
    | mk fr1 oe =>
      rw [hb] at h
      cases oe with
      | some e => simp at h
      | none =>
        simp only at h
        obtain ⟨file, hget, hfr1⟩ := loopBody_ok env bucket object fr fr1 hb
        rw [ih fr1 fr2 h, hfr1]
        simp [readAll, loopTrace, hget, List.range'_succ]

/-- The frame `DownloadAllImages` enters its loop with. -/
theorem DownloadAllImages_eq_of_loop (env : Env) (bucket : String) (fr : Frame)
    (hexists : env.bucketExists bucket = .ok true)
    (hloop : downloadLoop env bucket (env.listObjects bucket)
      { zipWriter := NewWriter, deferred := [],
        trace := [Event.bucketExists bucket, Event.listObjects bucket] } = (fr, none)) :
    DownloadAllImages env bucket =
      { buffer := some { entries := readAll env bucket (env.listObjects bucket), finalized := true },
        err := none,
        trace := [Event.bucketExists bucket, Event.listObjects bucket] ++
          loopTrace bucket (env.listObjects bucket) 0 ++ [Event.zipClose] ++
          (List.range (env.listObjects bucket).length).reverse.map Event.streamClose ++
          [Event.zipClose] } := by
  have hfr := downloadLoop_ok env bucket _ _ _ hloop
  unfold DownloadAllImages
  simp only [hexists, hloop]
  subst hfr
  simp [ZipWriter.Close, NewWriter, runDeferred, List.range_eq_range']

/-- A run of `DownloadAllImages` that returns a buffer ran its loop to the end. -/
theorem DownloadAllImages_loop_of_buffer (env : Env) (bucket : String)
    (h : (DownloadAllImages env bucket).buffer ≠ none ∨ (DownloadAllImages env bucket).err = none) :
    env.bucketExists bucket = .ok true ∧
    ∃ fr, downloadLoop env bucket (env.listObjects bucket)
      { zipWriter := NewWriter, deferred := [],
        trace := [Event.bucketExists bucket, Event.listObjects bucket] } = (fr, none) := by
  unfold DownloadAllImages at h
  cases hex : env.bucketExists bucket with
  | error e => simp [hex] at h
  | ok b =>
    cases b with
    | false => simp [hex] at h
    | true =>
      refine ⟨rfl, ?_⟩
      simp only [hex] at h
      cases hl : downloadLoop env bucket (env.listObjects bucket)
        { zipWriter := NewWriter, deferred := [],
          trace := [Event.bucketExists bucket, Event.listObjects bucket] } with
      | mk fr oe =>
        cases oe with
        | some e => simp [hl] at h
        | none => exact ⟨fr, rfl⟩

/-- No step fails on an object that is read in full, whose key fits a zip header and is not
a directory name with content. -/
theorem stepError_none (env : Env) (bucket key : String) (content : Bytes)
    (hread : env.getObject bucket key = .ok { data := content, readErr := none })
    (hname : key.utf8ByteSize ≤ uint16max)
    (hdir : hasSlashSuffix key = true → content = []) :
    stepError env bucket (descriptor key) = none := by
  unfold stepError
  simp only [descriptor, hread]
  unfold ZipWriter.Create
  simp only [Nat.not_lt.2 hname, if_false]
  unfold ioCopy
  by_cases hc : content = []
  · simp [hc]
  · have hd : hasSlashSuffix key = false := by
      cases h : hasSlashSuffix key with
      | false => rfl
      | true => exact absurd (hdir h) hc
    simp [hc, hd, EntryWriter.Write]

/-- No call of a pass through the listing closes a stream or the zip writer. -/
theorem loopTrace_no_close (bucket : String) (objects : List ObjectInfo) :
    ∀ n : Nat, ∀ ev ∈ loopTrace bucket objects n,
      ev.isStreamClose = false ∧ ev ≠ Event.zipClose := by
  induction objects with
  | nil => intro n ev h; simp [loopTrace] at h
  | cons object rest ih =>
    intro n ev h
    simp only [loopTrace, List.mem_cons] at h
    rcases h with rfl | rfl | rfl | h
    · simp [Event.isStreamClose]
    · simp [Event.isStreamClose]
    · simp [Event.isStreamClose]
    · exact ih (n + 1) ev h

/-! ## The store state -/

/-- The lookup of a bucket, one step. -/
theorem findBucket_cons (b n : String) (objs : List (String × Bytes))
    (rest : List (String × List (String × Bytes))) :
    findBucket b ((n, objs) :: rest) = if n = b then some objs else findBucket b rest := rfl

/-- The lookup of a key, one step. -/
theorem findObject_cons (k k1 : String) (c1 : Bytes) (rest : List (String × Bytes)) :
    findObject k ((k1, c1) :: rest) = if k1 = k then some c1 else findObject k rest := rfl

/-- Looking a bucket up after a new, empty bucket is added at the end. -/
theorem findBucket_append (b name : String) (bs : List (String × List (String × Bytes))) :
    findBucket b (bs ++ [(name, [])]) =
      match findBucket b bs with
      | some objs => some objs
      | none => if name = b then some [] else none := by
  induction bs with
  | nil => simp [findBucket]
  | cons p rest ih =>
    obtain ⟨n, objs⟩ := p
    rw [List.cons_append, findBucket_cons, findBucket_cons, ih]
    by_cases h : n = b <;> simp [h]

/-- Looking a bucket up after the objects of the bucket `name` are changed by `f`. -/
theorem findBucket_map (b name : String) (f : List (String × Bytes) → List (String × Bytes))
    (bs : List (String × List (String × Bytes))) :
    findBucket b (bs.map fun p => if p.1 = name then (p.1, f p.2) else p) =
      if b = name then (findBucket b bs).map f else findBucket b bs := by
  induction bs with
  | nil => simp [findBucket]
  | cons p rest ih =>
    obtain ⟨n, objs⟩ := p
    rw [List.map_cons, findBucket_cons]
    by_cases hn : n = name
    · rw [if_pos hn, findBucket_cons, ih]
      by_cases hb : n = b
      · have hb2 : b = name := by rw [← hb, hn]
        simp [hb, hb2]
      · simp [hb]
    · rw [if_neg hn, findBucket_cons, ih]
      by_cases hb : n = b
      · have hb2 : ¬ b = name := fun h => hn (by rw [hb, h])
        simp [hb, hb2]
      · simp [hb]

/-- Looking a key up among objects from which another key is removed. -/
theorem findObject_filter (k key : String) (objs : List (String × Bytes)) (h : k ≠ key) :
    findObject k (objs.filter fun o => o.1 ≠ key) = findObject k objs := by
  induction objs with
  | nil => rfl
  | cons o rest ih =>
    obtain ⟨k1, c1⟩ := o
    rw [List.filter_cons, findObject_cons]
    by_cases h1 : k1 = key
    · have h2 : ¬ k1 = k := fun h2 => h (by rw [← h2, h1])
      rw [if_neg (by simpa using h1), ih, if_neg h2]
    · rw [if_pos (by simpa using h1), findObject_cons, ih]

/-- Looking a key up in a list of objects followed by one more. -/
theorem findObject_append (k key : String) (c : Bytes) (objs : List (String × Bytes)) :
    findObject k (objs ++ [(key, c)]) =
      match findObject k objs with
      | some c1 => some c1
      | none => if key = k then some c else none := by
  induction objs with
  | nil => simp [findObject]
  | cons o rest ih =>
    obtain ⟨k1, c1⟩ := o
    rw [List.cons_append, findObject_cons, findObject_cons, ih]
    by_cases h : k1 = k <;> simp [h]

/-- No object is found under a key that was removed. -/
theorem findObject_filter_self (key : String) (objs : List (String × Bytes)) :
    findObject key (objs.filter fun o => o.1 ≠ key) = none := by
  induction objs with
  | nil => rfl
  | cons o rest ih =>
    obtain ⟨k1, c1⟩ := o
    rw [List.filter_cons]
    by_cases h1 : k1 = key
    · rw [if_neg (by simpa using h1), ih]
    · rw [if_pos (by simpa using h1), findObject_cons, if_neg h1, ih]

/-- After a put the key holds the content. -/
theorem findObject_putIn_self (key : String) (c : Bytes) (objs : List (String × Bytes)) :
    findObject key (putIn key c objs) = some c := by
  unfold putIn
  rw [findObject_append, findObject_filter_self]
  simp

/-- A put leaves what the other keys hold. -/
theorem findObject_putIn_other (k key : String) (c : Bytes) (objs : List (String × Bytes))
    (h : k ≠ key) : findObject k (putIn key c objs) = findObject k objs := by
  unfold putIn
  rw [findObject_append, findObject_filter k key objs h]
  have : ¬ key = k := fun h2 => h h2.symm
  cases findObject k objs <;> simp [this]

/-- The bytes sent by a put whose declared size is the length of the content. -/
theorem sent_length (c : Bytes) : sent c (c.length : Int) = some c := by
  unfold sent
  simp

/-- The buckets the put of `UploadImage` acts on: those of the store, with the bucket
created when it was absent. -/
theorem UploadImage_ok (w : World) (bucket key : String) (file : Bytes) (fileSize : Int)
    (h : (UploadImage w bucket key file fileSize).err = none) :
    ∃ content, sent file fileSize = some content ∧ key ≠ "" ∧
      (UploadImage w bucket key file fileSize).world.faults = w.faults ∧
      (UploadImage w bucket key file fileSize).world.sign = w.sign ∧
      (UploadImage w bucket key file fileSize).world.buckets =
        (if (w.objects bucket).isSome then w.buckets else w.buckets ++ [(bucket, [])]).map
          fun p => if p.1 = bucket then (p.1, putIn key content p.2) else p := by
  have hput : ∀ (w1 : World) (tr : List Event),
      (putStep w1 bucket key file fileSize tr).err = none →
      ∃ content, sent file fileSize = some content ∧ key ≠ "" ∧
        (putStep w1 bucket key file fileSize tr).world.faults = w1.faults ∧
        (putStep w1 bucket key file fileSize tr).world.sign = w1.sign ∧
        (putStep w1 bucket key file fileSize tr).world.buckets =
          w1.buckets.map fun p => if p.1 = bucket then (p.1, putIn key content p.2) else p := by
    intro w1 tr h1
    unfold putStep World.PutObject at h1 ⊢
    by_cases hk : key = ""
    · simp [hk] at h1
    · simp only [hk, if_false] at h1 ⊢
      cases hf : w1.faults.putObject bucket key with
      | some e => simp [hf] at h1
      | none =>
        simp only [hf] at h1 ⊢
        cases ho : w1.objects bucket with
        | none => simp [ho] at h1
        | some objs =>
          cases hs : sent file fileSize with
          | none => simp [ho, hs] at h1
          | some content => exact ⟨content, rfl, hk, rfl, rfl, rfl⟩
  unfold UploadImage World.BucketExists at h ⊢
  cases hf : w.faults.bucketExists bucket with
  | some e => simp [hf] at h
  | none =>
    simp only [hf] at h ⊢
    cases ho : (w.objects bucket).isSome with
    | true =>
      simp only [ho] at h ⊢
      simpa using hput w _ h
    | false =>
      simp only [ho] at h ⊢
      unfold World.MakeBucket at h ⊢
      cases hm : w.faults.makeBucket bucket with
      | some e => simp [hm] at h
      | none =>
        simp only [hm, ho] at h ⊢
        simpa using hput _ _ h

/-- The calls `UploadImage` makes. -/
theorem UploadImage_trace (w : World) (bucket key : String) (file : Bytes) (fileSize : Int) :
    (UploadImage w bucket key file fileSize).trace = [Event.bucketExists bucket] ∨
    (w.BucketExists bucket = .ok true ∧
      (UploadImage w bucket key file fileSize).trace =
        [Event.bucketExists bucket, Event.putObject bucket key]) ∨
    (w.BucketExists bucket = .ok false ∧
      ((UploadImage w bucket key file fileSize).trace =
          [Event.bucketExists bucket, Event.makeBucket bucket] ∨
       (UploadImage w bucket key file fileSize).trace =
          [Event.bucketExists bucket, Event.makeBucket bucket, Event.putObject bucket key])) := by
  unfold UploadImage
  cases hb : w.BucketExists bucket with
  | error e => simp
  | ok b =>
    cases b with
    | true =>
      simp only [putStep]
      cases w.PutObject bucket key file fileSize <;> simp
    | false =>
      simp only
      cases hm : w.MakeBucket bucket with
      | error e => simp
      | ok w1 =>
        simp only [putStep]
        cases w1.PutObject bucket key file fileSize <;> simp

/-- The buckets of the store are buckets of the store `UploadImage` leaves. -/
theorem UploadImage_keeps_buckets (w : World) (bucket key : String) (file : Bytes)
    (fileSize : Int) (b2 : String) (h : (w.objects b2).isSome = true) :
    ((UploadImage w bucket key file fileSize).world.objects b2).isSome = true := by
  have hput : ∀ (w1 : World) (tr : List Event), (w1.objects b2).isSome = true →
      ((putStep w1 bucket key file fileSize tr).world.objects b2).isSome = true := by
    intro w1 tr h1
    unfold putStep World.PutObject
    by_cases hk : key = ""
    · simpa [hk] using h1
    · simp only [hk, if_false]
      cases hf : w1.faults.putObject bucket key with
      | some e => simpa using h1
      | none =>
        simp only
        cases ho : w1.objects bucket with
        | none => simpa using h1
        | some objs =>
          cases hs : sent file fileSize with
          | none => simpa using h1
          | some content =>
            simp only [World.objects] at h1 ⊢
            rw [findBucket_map]
            by_cases hb : b2 = bucket <;> simp [hb, h1]
            rw [← hb]; exact h1
  unfold UploadImage
  cases hb : w.BucketExists bucket with
  | error e => simpa using h
  | ok b =>
    cases b with
    | true => exact hput w _ h
    | false =>
      simp only
      cases hm : w.MakeBucket bucket with
      | error e => simpa using h
      | ok w1 =>
        apply hput
        unfold World.MakeBucket at hm
        cases hf : w.faults.makeBucket bucket with
        | some e => simp [hf] at hm
        | none =>
          simp only [hf] at hm
          by_cases hex : (w.objects bucket).isSome = true
          · simp [hex] at hm
          · simp only [hex] at hm
            injection hm with hm
            subst hm
            simp only [World.objects] at h ⊢
            rw [findBucket_append]
            cases hfb : findBucket b2 w.buckets with
            | none => simp [hfb] at h
            | some objs => simp

/-! ## The calls of the read operations -/

/-- A pass through the loop body adds no call that changes the store. -/
theorem loopBody_reads (env : Env) (bucket : String) (object : ObjectInfo) (fr : Frame)
    (h : ∀ ev ∈ fr.trace, ev.mutates = false) :
    ∀ ev ∈ (loopBody env bucket object fr).1.trace, ev.mutates = false := by
  unfold loopBody
  cases env.getObject bucket object.Key with
  | error e =>
    intro ev hev
    simp only [List.mem_append, List.mem_singleton] at hev
    rcases hev with hev | rfl
    · exact h ev hev
    · rfl
  | ok file =>
    simp only
    cases fr.zipWriter.Create object.Key with
    | error e =>
      intro ev hev
      simp only [List.mem_append, List.mem_singleton] at hev
      rcases hev with (hev | rfl) | rfl
      · exact h ev hev
      · rfl
      · rfl
    | ok p =>
      obtain ⟨w, zipFile⟩ := p
      simp only
      cases hcp : ioCopy w zipFile file with
      | mk w2 oe =>
        cases oe <;>
        · intro ev hev
          simp only [List.mem_append, List.mem_singleton] at hev
          rcases hev with ((hev | rfl) | rfl) | rfl
          · exact h ev hev
          · rfl
          · rfl
          · rfl

/-- The loop of `DownloadAllImages` adds no call that changes the store. -/
theorem downloadLoop_reads (env : Env) (bucket : String) (objects : List ObjectInfo) :
    ∀ fr : Frame, (∀ ev ∈ fr.trace, ev.mutates = false) →
      ∀ ev ∈ (downloadLoop env bucket objects fr).1.trace, ev.mutates = false := by
  induction objects with
  | nil => intro fr h; simpa [downloadLoop] using h
  | cons object rest ih =>
    intro fr h
    have hb := loopBody_reads env bucket object fr h
    unfold downloadLoop
    cases hl : loopBody env bucket object fr with
    | mk fr1 oe =>
      rw [hl] at hb
      cases oe with
      | some e => exact hb
      | none => exact ih fr1 hb

/-- The deferred calls change nothing in the store. -/
theorem runDeferred_reads (fr : Frame) (h : ∀ ev ∈ fr.trace, ev.mutates = false) :
    ∀ ev ∈ (runDeferred fr).trace, ev.mutates = false := by
  intro ev hev
  simp only [runDeferred, List.mem_append, List.mem_map, List.mem_singleton] at hev
  rcases hev with (hev | ⟨i, -, rfl⟩) | rfl
  · exact h ev hev
  · rfl
  · rfl

/-- No call of `DownloadAllImages` changes the store. -/
theorem DownloadAllImages_reads (env : Env) (bucket : String) :
    ∀ ev ∈ (DownloadAllImages env bucket).trace, ev.mutates = false := by
  have h0 : ∀ ev ∈ [Event.bucketExists bucket, Event.listObjects bucket],
      ev.mutates = false := by
    intro ev hev
    simp only [List.mem_cons, List.mem_singleton, List.not_mem_nil, or_false] at hev
    rcases hev with rfl | rfl <;> rfl
  have hl := downloadLoop_reads env bucket (env.listObjects bucket)
    { zipWriter := NewWriter, deferred := [],
      trace := [Event.bucketExists bucket, Event.listObjects bucket] } h0
  unfold DownloadAllImages
  cases env.bucketExists bucket with
  | error e => intro ev hev; simp at hev; subst hev; rfl
  | ok b =>
    cases b with
    | false => intro ev hev; simp at hev; subst hev; rfl
    | true =>
      simp only
      cases hd : downloadLoop env bucket (env.listObjects bucket)
        { zipWriter := NewWriter, deferred := [],
          trace := [Event.bucketExists bucket, Event.listObjects bucket] } with
      | mk fr oe =>
        rw [hd] at hl
        simp only at hl
        cases oe with
        | some e => exact runDeferred_reads fr hl
        | none =>
          simp only
          have h1 : ∀ ev ∈ fr.trace ++ [Event.zipClose], ev.mutates = false := by
            intro ev hev
            simp only [List.mem_append, List.mem_singleton] at hev
            rcases hev with hev | rfl
            · exact hl ev hev
            · rfl
          cases hc : fr.zipWriter.Close with
          | mk w oe2 =>
            cases oe2 <;> exact runDeferred_reads _ h1

/-- The loop of `GetPresignedURLs` adds no call that changes the store. -/
theorem presignLoop_reads (env : Env) (bucket : String) (objects : List ObjectInfo) :
    ∀ (urls : Option (List String)) (tr : List Event), (∀ ev ∈ tr, ev.mutates = false) →
      ∀ ev ∈ (presignLoop env bucket objects urls tr).trace, ev.mutates = false := by
  induction objects with
  | nil => intro urls tr h; simpa [presignLoop] using h
  | cons object rest ih =>
    intro urls tr h
    have h1 : ∀ ev ∈ tr ++ [Event.presign bucket object.Key], ev.mutates = false := by
      intro ev hev
      simp only [List.mem_append, List.mem_singleton] at hev
      rcases hev with hev | rfl
      · exact h ev hev
      · rfl
    unfold presignLoop
    cases env.presignedGetObject bucket object.Key with
    | error e => exact h1
    | ok url => exact ih _ _ h1

/-- No call of `GetPresignedURLs` changes the store. -/
theorem GetPresignedURLs_reads (env : Env) (bucket : String) :
    ∀ ev ∈ (GetPresignedURLs env bucket).trace, ev.mutates = false := by
  apply presignLoop_reads
  intro ev hev
  simp only [List.mem_singleton] at hev
  subst hev
  rfl

/-- The outcome of the loop of `GetPresignedURLs` when every signing succeeds. -/
theorem presignLoop_ok (env : Env) (bucket : String) (f : String → String)
    (objects : List ObjectInfo)
    (h : ∀ object ∈ objects, env.presignedGetObject bucket object.Key = .ok (f object.Key)) :
    ∀ (urls : Option (List String)) (tr : List Event),
      presignLoop env bucket objects urls tr =
        { urls := if objects = [] then urls
                  else some (urls.getD [] ++ objects.map fun object => f object.Key),
          err := none,
          trace := tr ++ objects.map fun object => Event.presign bucket object.Key } := by
  induction objects with
  | nil => intro urls tr; simp [presignLoop]
  | cons object rest ih =>
    intro urls tr
    unfold presignLoop
    simp only [h object (List.mem_cons_self _ _)]
    rw [ih (fun o ho => h o (List.mem_cons_of_mem _ ho))]
    cases urls <;> cases rest <;> simp [goAppend]

/-- A key holds content exactly when it is the key of an object of the list. -/
theorem findObject_ne_none_iff (k : String) (objs : List (String × Bytes)) :
    findObject k objs ≠ none ↔ k ∈ objs.map Prod.fst := by
  induction objs with
  | nil => simp [findObject]
  | cons o rest ih =>
    obtain ⟨k1, c1⟩ := o
    rw [findObject_cons]
    by_cases h : k1 = k
    · simp [h]
    · have h2 : ¬ k = k1 := fun h3 => h h3.symm
      simp [h, h2, ih]

/-- A key without a `/` is listed as itself. -/
theorem listedAs_of_not_mem (key : String) (h : '/' ∉ key.data) : listedAs key = key := by
  unfold listedAs
  rw [if_neg h]

/-! ## The claims on `DownloadAllImages` -/

/-- C1 (amended): for an existing bucket whose listing yields the objects (k1,c1),...,(kN,cN),
N >= 0, whose reads all succeed, whose keys are at most 65535 bytes long and in which no key
ending in a slash has content, `DownloadAllImages` returns no error and a finalized archive
whose entries are exactly (k1,c1),...,(kN,cN) in listing order. -/
theorem DownloadAllImages_roundtrip (env : Env) (bucket : String) (objs : List (String × Bytes))
    (hexists : env.bucketExists bucket = .ok true)
    (hlist : env.listObjects bucket = objs.map fun o => descriptor o.1)
    (hread : ∀ o ∈ objs, env.getObject bucket o.1 = .ok { data := o.2, readErr := none })
    (hname : ∀ o ∈ objs, o.1.utf8ByteSize ≤ uint16max)
    (hdir : ∀ o ∈ objs, hasSlashSuffix o.1 = true → o.2 = []) :
    (DownloadAllImages env bucket).err = none ∧
    (DownloadAllImages env bucket).buffer =
      some { entries := objs.map fun o => { name := o.1, data := o.2 }, finalized := true } := by
  have hnone : ∀ object ∈ env.listObjects bucket, stepError env bucket object = none := by
    intro object hmem
    rw [hlist, List.mem_map] at hmem
    obtain ⟨o, ho, rfl⟩ := hmem
    exact stepError_none env bucket o.1 o.2 (hread o ho) (hname o ho) (hdir o ho)
  have hloop := (downloadLoop_none_iff env bucket (env.listObjects bucket)
    { zipWriter := NewWriter, deferred := [],
      trace := [Event.bucketExists bucket, Event.listObjects bucket] }).2 hnone
  cases hl : downloadLoop env bucket (env.listObjects bucket)
    { zipWriter := NewWriter, deferred := [],
      trace := [Event.bucketExists bucket, Event.listObjects bucket] } with
  | mk fr oe =>
    rw [hl] at hloop
    simp only at hloop
    subst hloop
    rw [DownloadAllImages_eq_of_loop env bucket fr hexists hl]
    refine ⟨rfl, ?_⟩
    simp only [hlist, readAll, List.map_map, Option.some.injEq, Buffer.mk.injEq, and_true]
    apply List.map_congr_left
    intro o ho
    simp [descriptor, hread o ho]

/-- C1, an instance: the bucket `photos` of `envPhotos` is archived as its two objects, and
a bucket without objects as the finalized archive without entries. -/
theorem DownloadAllImages_roundtrip_witness :
    ((DownloadAllImages envPhotos "photos").err = none ∧
     (DownloadAllImages envPhotos "photos").buffer =
       some { entries := [{ name := "a.jpg", data := [1, 2] }, { name := "b.png", data := [3] }],
              finalized := true }) ∧
    ((DownloadAllImages envEmpty "photos").err = none ∧
     (DownloadAllImages envEmpty "photos").buffer = some { entries := [], finalized := true }) :=
  ⟨DownloadAllImages_roundtrip envPhotos "photos" [("a.jpg", [1, 2]), ("b.png", [3])]
     (by decide) (by decide) (by decide) (by decide) (by decide),
   DownloadAllImages_roundtrip envEmpty "photos" []
     (by decide) (by decide) (by decide) (by decide) (by decide)⟩

/-- C1 as stated fails: the bucket `photos` of `envDir` exists, its listing yields `a.jpg`
and `d/`, both reads succeed, and `DownloadAllImages` returns an error and no archive. -/
theorem DownloadAllImages_roundtrip_counterexample :
    envDir.bucketExists "photos" = .ok true ∧
    envDir.listObjects "photos" = [descriptor "a.jpg", descriptor "d/"] ∧
    envDir.getObject "photos" "a.jpg" = .ok { data := [1, 2], readErr := none } ∧
    envDir.getObject "photos" "d/" = .ok { data := [7], readErr := none } ∧
    (DownloadAllImages envDir "photos").err = some (.zip "zip: write to directory") ∧
    (DownloadAllImages envDir "photos").buffer = none := by
  decide

/-- C2: for a bucket the store reports as absent, `DownloadAllImages` fails with the
bucket-not-found error, returns no buffer, and its only call is the existence check: it
makes no list or get call against the store. -/
theorem DownloadAllImages_absent (env : Env) (bucket : String)
    (habsent : env.bucketExists bucket = .ok false) :
    (DownloadAllImages env bucket).err = some (.errorf "bucket not found") ∧
    (DownloadAllImages env bucket).buffer = none ∧
    (DownloadAllImages env bucket).trace = [Event.bucketExists bucket] ∧
    ∀ ev ∈ (DownloadAllImages env bucket).trace, ev.isListOrGet = false := by
  unfold DownloadAllImages
  simp [habsent, Event.isListOrGet]

/-- C2, an instance: the bucket `videos`, which `envPhotos` reports as absent. -/
theorem DownloadAllImages_absent_witness :
    (DownloadAllImages envPhotos "videos").err = some (.errorf "bucket not found") ∧
    (DownloadAllImages envPhotos "videos").buffer = none ∧
    (DownloadAllImages envPhotos "videos").trace = [Event.bucketExists "videos"] ∧
    ∀ ev ∈ (DownloadAllImages envPhotos "videos").trace, ev.isListOrGet = false :=
  DownloadAllImages_absent envPhotos "videos" (by decide)

/-- C5 as stated fails: the existence check of `envDown` fails with the store error
`connection refused`, and `DownloadAllImages` returns the not-found error, not that one. -/
theorem DownloadAllImages_check_counterexample :
    envDown.bucketExists "photos" = .error ⟨"connection refused"⟩ ∧
    (DownloadAllImages envDown "photos").err ≠ some (.store ⟨"connection refused"⟩) ∧
    (DownloadAllImages envDown "photos").err = some (.errorf "bucket not found") := by
  decide

/-- C5 (amended): if the bucket-existence check fails with a store error, `DownloadAllImages`
drops that error and returns the not-found error and no buffer after this one call, which is
what it returns for a bucket the store reports as absent. -/
theorem DownloadAllImages_check_fails (env : Env) (bucket : String) (e : StoreError)
    (hfail : env.bucketExists bucket = .error e) :
    DownloadAllImages env bucket =
      { buffer := none, err := some (.errorf "bucket not found"),
        trace := [Event.bucketExists bucket] } ∧
    ∀ env2 : Env, env2.bucketExists bucket = .ok false →
      DownloadAllImages env2 bucket = DownloadAllImages env bucket := by
  constructor
  · unfold DownloadAllImages
    simp [hfail]
  · intro env2 h2
    unfold DownloadAllImages
    simp [hfail, h2]

/-- C5 (amended), an instance: the store `envDown`, against the absent bucket of `envPhotos`. -/
theorem DownloadAllImages_check_fails_witness :
    DownloadAllImages envDown "videos" =
      { buffer := none, err := some (.errorf "bucket not found"),
        trace := [Event.bucketExists "videos"] } ∧
    DownloadAllImages envPhotos "videos" = DownloadAllImages envDown "videos" :=
  ⟨(DownloadAllImages_check_fails envDown "videos" ⟨"connection refused"⟩ (by decide)).1,
   (DownloadAllImages_check_fails envDown "videos" ⟨"connection refused"⟩ (by decide)).2
     envPhotos (by decide)⟩

/-- C3: if opening the stream, creating the archive entry or copying the content fails for
the object at some position of the listing, `DownloadAllImages` returns an error and no
buffer; and a buffer it returns is finalized, comes with no error and holds one entry for
each listed descriptor, in listing order. -/
theorem DownloadAllImages_all_or_nothing (env : Env) (bucket : String) :
    (∀ (i : Nat) (object : ObjectInfo), (env.listObjects bucket)[i]? = some object →
      ((∃ e, env.getObject bucket object.Key = .error e) ∨
       (∀ w : ZipWriter, ∃ e, w.Create object.Key = .error e) ∨
       (∃ file, env.getObject bucket object.Key = .ok file ∧
          ∀ (w w2 : ZipWriter) (zipFile : EntryWriter), w.Create object.Key = .ok (w2, zipFile) →
            ∃ e, (ioCopy w2 zipFile file).2 = some e)) →
      (DownloadAllImages env bucket).buffer = none ∧
      ∃ e, (DownloadAllImages env bucket).err = some e) ∧
    (∀ buf, (DownloadAllImages env bucket).buffer = some buf →
      (DownloadAllImages env bucket).err = none ∧ buf.finalized = true ∧
      buf.entries.map Entry.name = (env.listObjects bucket).map ObjectInfo.Key) := by
  constructor
  · intro i object hi hfail
    have hmem : object ∈ env.listObjects bucket := List.getElem?_mem hi
    have hstep : stepError env bucket object ≠ none := by
      unfold stepError
      rcases hfail with ⟨e, he⟩ | hcreate | ⟨file, hfile, hcopy⟩
      · simp [he]
      · cases hget : env.getObject bucket object.Key with
        | error e => simp
        | ok file =>
          obtain ⟨e, he⟩ := hcreate NewWriter
          simp [he]
      · simp only [hfile]
        cases hc : NewWriter.Create object.Key with
        | error e => simp
        | ok p =>
          obtain ⟨w2, zipFile⟩ := p
          obtain ⟨e, he⟩ := hcopy NewWriter w2 zipFile hc
          simp [he]
    have hres : ¬ ((DownloadAllImages env bucket).buffer ≠ none ∨
        (DownloadAllImages env bucket).err = none) := by
      intro h
      obtain ⟨-, fr, hloop⟩ := DownloadAllImages_loop_of_buffer env bucket h
      have := (downloadLoop_none_iff env bucket (env.listObjects bucket) _).1
        (by rw [hloop]) object hmem
      exact hstep this
    simp only [not_or, not_not] at hres
    refine ⟨hres.1, ?_⟩
    cases herr : (DownloadAllImages env bucket).err with
    | none => exact absurd herr hres.2
    | some e => exact ⟨e, rfl⟩
  · intro buf hbuf
    obtain ⟨hex, fr, hloop⟩ := DownloadAllImages_loop_of_buffer env bucket
      (Or.inl (by rw [hbuf]; simp))
    rw [DownloadAllImages_eq_of_loop env bucket fr hex hloop] at hbuf ⊢
    simp only [Option.some.injEq] at hbuf
    subst hbuf
    refine ⟨rfl, rfl, ?_⟩
    simp only [readAll, List.map_map]
    apply List.map_congr_left
    intro o _
    simp only [Function.comp]
    cases env.getObject bucket o.Key <;> rfl

/-- C3, an instance: in `envDir` the copy into the entry of the second object, `d/`, fails
after the entry of `a.jpg` was written, and no buffer is returned. -/
theorem DownloadAllImages_all_or_nothing_witness :
    (DownloadAllImages envDir "photos").buffer = none ∧
    ∃ e, (DownloadAllImages envDir "photos").err = some e :=
  (DownloadAllImages_all_or_nothing envDir "photos").1 1 (descriptor "d/") (by decide)
    (Or.inr (Or.inr ⟨{ data := [7], readErr := none }, by decide, by
      intro w w2 zipFile hc
      have hz := (Create_ok w w2 "d/" zipFile hc).2.1
      have hd : hasSlashSuffix "d/" = true := by decide
      rw [hd] at hz
      subst hz
      exact ⟨.zip "zip: write to directory", by simp [ioCopy, EntryWriter.Write]⟩⟩))

/-- C10: in a run of `DownloadAllImages` that returns no error over n listed objects, the
loop ends with n streams opened and none closed and the archive not sealed; the explicit
`Close` seals it; the rest of the trace closes each of the n streams exactly once and then
calls `Close` again; and the returned buffer is the sealed one, which the second `Close`
leaves as it is. -/
theorem DownloadAllImages_close_order (env : Env) (bucket : String)
    (hok : (DownloadAllImages env bucket).err = none) :
    ∃ fr : Frame,
      downloadLoop env bucket (env.listObjects bucket)
        { zipWriter := NewWriter, deferred := [],
          trace := [Event.bucketExists bucket, Event.listObjects bucket] } = (fr, none) ∧
      fr.deferred = List.range (env.listObjects bucket).length ∧
      (∀ ev ∈ fr.trace, ev.isStreamClose = false ∧ ev ≠ Event.zipClose) ∧
      fr.zipWriter.buf.finalized = false ∧
      fr.zipWriter.Close.1.buf.finalized = true ∧
      (DownloadAllImages env bucket).trace =
        fr.trace ++ [Event.zipClose] ++
          (List.range (env.listObjects bucket).length).reverse.map Event.streamClose ++
          [Event.zipClose] ∧
      (∀ i < (env.listObjects bucket).length,
        (DownloadAllImages env bucket).trace.count (Event.streamClose i) = 1) ∧
      (DownloadAllImages env bucket).buffer = some fr.zipWriter.Close.1.buf ∧
      fr.zipWriter.Close.1.Close.1.buf = fr.zipWriter.Close.1.buf := by
  obtain ⟨hex, fr, hloop⟩ := DownloadAllImages_loop_of_buffer env bucket (Or.inr hok)
  have hfr := downloadLoop_ok env bucket _ _ _ hloop
  have hnc := loopTrace_no_close bucket (env.listObjects bucket) 0
  have hpre : ∀ ev ∈ fr.trace, ev.isStreamClose = false ∧ ev ≠ Event.zipClose := by
    intro ev hev
    rw [hfr] at hev
    simp only [List.length_nil, List.mem_append, List.mem_cons, List.mem_singleton,
      List.not_mem_nil, or_false] at hev
    rcases hev with (rfl | rfl) | hev
    · simp [Event.isStreamClose]
    · simp [Event.isStreamClose]
    · exact hnc ev hev
  refine ⟨fr, hloop, ?_, hpre, ?_, ?_, ?_, ?_, ?_, ?_⟩
  · rw [hfr]; simp [List.range_eq_range']
  · rw [hfr]; rfl
  · rw [hfr]; simp [ZipWriter.Close, NewWriter]
  · rw [DownloadAllImages_eq_of_loop env bucket fr hex hloop, hfr]
    simp
  · intro i hi
    rw [DownloadAllImages_eq_of_loop env bucket fr hex hloop]
    have h1 : ∀ l : List Event, (∀ ev ∈ l, ev.isStreamClose = false ∧ ev ≠ Event.zipClose) →
        l.count (Event.streamClose i) = 0 := by
      intro l hl
      rw [List.count_eq_zero]
      intro hmem
      have := (hl _ hmem).1
      simp [Event.isStreamClose] at this
    have h2 : ((List.range (env.listObjects bucket).length).reverse.map Event.streamClose).count
        (Event.streamClose i) = 1 := by
      have hinj : Function.Injective Event.streamClose := by
        intro a b hab
        injection hab
      rw [List.count_map_of_injective _ _ hinj, List.count_reverse]
      exact List.count_eq_one_of_mem (List.nodup_range _) (List.mem_range.2 hi)
    simp only [List.count_append, h2, h1 _ hnc]
    simp [List.count_cons, List.count_nil]
  · rw [DownloadAllImages_eq_of_loop env bucket fr hex hloop, hfr]
    simp [ZipWriter.Close, NewWriter]
  · rw [hfr]
    simp [ZipWriter.Close, NewWriter]

/-- C10, an instance: the run over the two objects of the bucket `photos` of `envPhotos`. -/
theorem DownloadAllImages_close_order_witness :
    (DownloadAllImages envPhotos "photos").trace =
      [Event.bucketExists "photos", Event.listObjects "photos",
       Event.getObject "photos" "a.jpg", Event.zipCreate "a.jpg", Event.copy 0,
       Event.getObject "photos" "b.png", Event.zipCreate "b.png", Event.copy 1,
       Event.zipClose, Event.streamClose 1, Event.streamClose 0, Event.zipClose] ∧
    ∃ fr : Frame,
      fr.deferred = List.range (envPhotos.listObjects "photos").length ∧
      (DownloadAllImages envPhotos "photos").buffer = some fr.zipWriter.Close.1.buf ∧
      fr.zipWriter.Close.1.Close.1.buf = fr.zipWriter.Close.1.buf :=
  ⟨by decide,
   (DownloadAllImages_close_order envPhotos "photos" (by decide)).elim
     fun fr h => ⟨fr, h.2.1, h.2.2.2.2.2.2.2.1, h.2.2.2.2.2.2.2.2⟩⟩

/-- C4, the failing input: the listing of `photos` in `worldBroken` delivers `a.jpg` and then
an error descriptor carrying `connection reset`; `DownloadAllImages` takes the descriptor for
an object, asks for the object of its empty key and returns the error of that call. -/
theorem DownloadAllImages_listing_error :
    worldBroken.env.bucketExists "photos" = .ok true ∧
    worldBroken.env.listObjects "photos" =
      [descriptor "a.jpg", { Key := "", Err := some ⟨"connection reset"⟩ }] ∧
    (DownloadAllImages worldBroken.env "photos").err =
      some (.store ⟨"Object name cannot be empty"⟩) ∧
    (DownloadAllImages worldBroken.env "photos").err ≠ some (.store ⟨"connection reset"⟩) ∧
    (DownloadAllImages worldBroken.env "photos").trace =
      [Event.bucketExists "photos", Event.listObjects "photos",
       Event.getObject "photos" "a.jpg", Event.zipCreate "a.jpg", Event.copy 0,
       Event.getObject "photos" "",
       Event.streamClose 0, Event.zipClose] := by
  decide

/-! ## The claims on `UploadImage` and `GetPresignedURLs` -/

/-- C6: `UploadImage` issues a create-bucket call exactly when the existence check succeeds
and reports the bucket absent, and for that bucket; when it returns no error the bucket
exists and holds the content under the key, every other bucket and every other key of the
bucket being as before; no bucket of the store is missing after `UploadImage`, and
`GetPresignedURLs` and `DownloadAllImages` make no call that changes the store. -/
theorem UploadImage_contract (w : World) (bucket key : String) (c : Bytes) :
    (∀ b2, Event.makeBucket b2 ∈ (UploadImage w bucket key c c.length).trace ↔
      (b2 = bucket ∧ w.BucketExists bucket = .ok false)) ∧
    ((UploadImage w bucket key c c.length).err = none →
      ((UploadImage w bucket key c c.length).world.objects bucket).isSome = true ∧
      (UploadImage w bucket key c c.length).world.content bucket key = some c ∧
      (∀ b2, b2 ≠ bucket →
        (UploadImage w bucket key c c.length).world.objects b2 = w.objects b2) ∧
      (∀ k2, k2 ≠ key →
        (UploadImage w bucket key c c.length).world.content bucket k2 = w.content bucket k2)) ∧
    (∀ (file : Bytes) (fileSize : Int) (b2 : String), (w.objects b2).isSome = true →
      ((UploadImage w bucket key file fileSize).world.objects b2).isSome = true) ∧
    (∀ (env : Env) (b2 : String), ∀ ev ∈ (GetPresignedURLs env b2).trace, ev.mutates = false) ∧
    (∀ (env : Env) (b2 : String), ∀ ev ∈ (DownloadAllImages env b2).trace, ev.mutates = false) := by
  refine ⟨?_, ?_, ?_, GetPresignedURLs_reads, DownloadAllImages_reads⟩
  · intro b2
    rcases UploadImage_trace w bucket key c c.length with h | ⟨hb, h⟩ | ⟨hb, h | h⟩
    · rw [h]
      constructor
      · intro hm; simp at hm
      · rintro ⟨-, hb⟩
        exfalso
        unfold UploadImage at h
        rw [hb] at h
        simp only at h
        cases hm : w.MakeBucket bucket with
        | error e => simp [hm] at h
        | ok w1 =>
          simp only [hm, putStep] at h
          cases hp : w1.PutObject bucket key c c.length <;> simp [hp] at h
    · rw [h, hb]; simp
    · rw [h, hb]; simp [eq_comm]
    · rw [h, hb]; simp [eq_comm]
  · intro hok
    obtain ⟨content, hsent, -, -, -, hbuckets⟩ := UploadImage_ok w bucket key c c.length hok
    rw [sent_length] at hsent
    injection hsent with hsent
    subst hsent
    have hbase : ∀ b2, findBucket b2
        (if (w.objects bucket).isSome then w.buckets else w.buckets ++ [(bucket, [])]) =
        if b2 = bucket then some ((w.objects bucket).getD []) else w.objects b2 := by
      intro b2
      unfold World.objects
      cases hfb : findBucket bucket w.buckets with
      | some objs =>
        by_cases hb : b2 = bucket
        · simp [hb, hfb]
        · simp [hb]
      | none =>
        simp only [Option.isSome_none, Bool.false_eq_true, if_false, findBucket_append]
        by_cases hb : b2 = bucket
        · simp [hb, hfb]
        · have hb2 : ¬ bucket = b2 := fun h => hb h.symm
          cases findBucket b2 w.buckets <;> simp [hb, hb2]
    have hobj : ∀ b2, (UploadImage w bucket key c c.length).world.objects b2 =
        if b2 = bucket then some (putIn key c ((w.objects bucket).getD [])) else w.objects b2 := by
      intro b2
      rw [World.objects, hbuckets, findBucket_map, hbase]
      by_cases hb : b2 = bucket <;> simp [hb]
    refine ⟨?_, ?_, ?_, ?_⟩
    · rw [hobj]; simp
    · simp only [World.content, hobj, if_true]
      exact findObject_putIn_self _ _ _
    · intro b2 hb2
      rw [hobj, if_neg hb2]
    · intro k2 hk2
      simp only [World.content, hobj, if_true]
      rw [findObject_putIn_other k2 key c _ hk2]
      cases w.objects bucket <;> simp [findObject]
  · intro file fileSize b2 h
    exact UploadImage_keeps_buckets w bucket key file fileSize b2 h

/-- C6, an instance: the upload of `c.jpg` to the bucket `new`, absent from `worldPhotos`. -/
theorem UploadImage_contract_witness :
    Event.makeBucket "new" ∈ (UploadImage worldPhotos "new" "c.jpg" [9] ([9] : Bytes).length).trace ∧
    (UploadImage worldPhotos "new" "c.jpg" [9] ([9] : Bytes).length).world.content "new" "c.jpg" =
      some [9] ∧
    (UploadImage worldPhotos "new" "c.jpg" [9] ([9] : Bytes).length).world.objects "photos" =
      worldPhotos.objects "photos" :=
  ⟨((UploadImage_contract worldPhotos "new" "c.jpg" [9]).1 "new").2 ⟨rfl, by decide⟩,
   ((UploadImage_contract worldPhotos "new" "c.jpg" [9]).2.1 (by decide)).2.1,
   ((UploadImage_contract worldPhotos "new" "c.jpg" [9]).2.1 (by decide)).2.2.1 "photos"
     (by decide)⟩

/-- C7 as stated fails, in two ways. In `worldUnsigned` the upload of `c.jpg` to `photos`
returns no error and `GetPresignedURLs` run on the store it leaves fails, the signing being
refused. In `worldNested` the upload of `x/c.jpg` returns no error and `GetPresignedURLs`
succeeds with three URLs, for `a.jpg`, `b.png` and the prefix `x/`: none resolves to the
uploaded key `x/c.jpg`, and none to the other object `x/b.jpg`. -/
theorem GetPresignedURLs_after_upload_counterexample :
    ((UploadImage worldUnsigned "photos" "c.jpg" [9] 1).err = none ∧
     (GetPresignedURLs (UploadImage worldUnsigned "photos" "c.jpg" [9] 1).world.env "photos").err =
       some (.store ⟨"connection refused"⟩) ∧
     (GetPresignedURLs (UploadImage worldUnsigned "photos" "c.jpg" [9] 1).world.env "photos").urls =
       none) ∧
    ((UploadImage worldNested "photos" "x/c.jpg" [9] 1).err = none ∧
     (UploadImage worldNested "photos" "x/c.jpg" [9] 1).world.content "photos" "x/c.jpg" =
       some [9] ∧
     (UploadImage worldNested "photos" "x/c.jpg" [9] 1).world.content "photos" "x/b.jpg" =
       some [4] ∧
     (GetPresignedURLs (UploadImage worldNested "photos" "x/c.jpg" [9] 1).world.env "photos").trace =
       [Event.listObjects "photos", Event.presign "photos" "a.jpg",
        Event.presign "photos" "b.png", Event.presign "photos" "x/"] ∧
     (GetPresignedURLs (UploadImage worldNested "photos" "x/c.jpg" [9] 1).world.env "photos").err =
       none ∧
     (GetPresignedURLs (UploadImage worldNested "photos" "x/c.jpg" [9] 1).world.env "photos").urls =
       some [worldNested.sign "photos" "a.jpg", worldNested.sign "photos" "b.png",
             worldNested.sign "photos" "x/"] ∧
     worldNested.sign "photos" "x/c.jpg" ∉
       [worldNested.sign "photos" "a.jpg", worldNested.sign "photos" "b.png",
        worldNested.sign "photos" "x/"] ∧
     worldNested.sign "photos" "x/b.jpg" ∉
       [worldNested.sign "photos" "a.jpg", worldNested.sign "photos" "b.png",
        worldNested.sign "photos" "x/"]) := by
  decide

/-- C7 (amended): if `UploadImage` of a key without a `/` returns no error, and in
`GetPresignedURLs` run on the store it leaves the listing does not break and the signing
succeeds for every listed entry, then `GetPresignedURLs` returns no error and one URL for
each listed entry; among the entries these URLs are signed for, the uploaded key occurs
exactly once (also when it was in the bucket before), every other object of the bucket
whose key has no `/` exactly once, no entry twice, and every entry is the key or the common
prefix of an object of the bucket. -/
theorem GetPresignedURLs_after_upload (w : World) (bucket key : String) (c : Bytes)
    (hup : (UploadImage w bucket key c c.length).err = none)
    (hlist : w.faults.listObjects bucket = none)
    (hsign : ∀ object ∈ (UploadImage w bucket key c c.length).world.env.listObjects bucket,
      (UploadImage w bucket key c c.length).world.env.presignedGetObject bucket object.Key =
        .ok (w.sign bucket object.Key))
    (hkey : '/' ∉ key.data) :
    ∃ keys : List String,
      (UploadImage w bucket key c c.length).world.env.listObjects bucket =
        keys.map descriptor ∧
      (GetPresignedURLs (UploadImage w bucket key c c.length).world.env bucket).err = none ∧
      (GetPresignedURLs (UploadImage w bucket key c c.length).world.env bucket).urls =
        some (keys.map (w.sign bucket)) ∧
      keys.count key = 1 ∧
      (∀ k2, k2 ≠ key → '/' ∉ k2.data → w.content bucket k2 ≠ none → keys.count k2 = 1) ∧
      keys.Nodup ∧
      (∀ k2 ∈ keys, ∃ k3,
        (UploadImage w bucket key c c.length).world.content bucket k3 ≠ none ∧
        listedAs k3 = k2) := by
  obtain ⟨content, hsent, -, hfaults, -, hbuckets⟩ := UploadImage_ok w bucket key c c.length hup
  rw [sent_length] at hsent
  injection hsent with hsent
  subst hsent
  have hobj : (UploadImage w bucket key c c.length).world.objects bucket =
      some (putIn key c ((w.objects bucket).getD [])) := by
    rw [World.objects, hbuckets, findBucket_map]
    simp only [if_true]
    unfold World.objects
    cases hfb : findBucket bucket w.buckets with
    | some objs => simp [hfb]
    | none => simp [findBucket_append, hfb]
  have hlisting : (UploadImage w bucket key c c.length).world.env.listObjects bucket =
      ((UploadImage w bucket key c c.length).world.listing
        (putIn key c ((w.objects bucket).getD []))).map descriptor := by
    simp only [World.env, hobj, hfaults, hlist]
  have hcount : ∀ k2 : String,
      ((UploadImage w bucket key c c.length).world.listing
        (putIn key c ((w.objects bucket).getD []))).count k2 =
      if k2 ∈ (putIn key c ((w.objects bucket).getD [])).map (fun o => listedAs o.1)
      then 1 else 0 := by
    intro k2
    unfold World.listing
    rw [((UploadImage w bucket key c c.length).world.order_perm _).count_eq, List.count_dedup]
  have hin : key ∈ (putIn key c ((w.objects bucket).getD [])).map (fun o => listedAs o.1) := by
    rw [List.mem_map]
    exact ⟨(key, c), by simp [putIn], listedAs_of_not_mem key hkey⟩
  have hkeyin : key ∈ (UploadImage w bucket key c c.length).world.listing
      (putIn key c ((w.objects bucket).getD [])) := by
    rw [← List.count_pos_iff, hcount key, if_pos hin]
    exact Nat.one_pos
  have hsign2 : ∀ object ∈ ((UploadImage w bucket key c c.length).world.listing
      (putIn key c ((w.objects bucket).getD []))).map descriptor,
      (UploadImage w bucket key c c.length).world.env.presignedGetObject bucket object.Key =
        .ok (w.sign bucket object.Key) := by
    intro object hobject
    exact hsign object (by rw [hlisting]; exact hobject)
  have hne : ((UploadImage w bucket key c c.length).world.listing
      (putIn key c ((w.objects bucket).getD []))).map descriptor ≠ [] := by
    intro h
    rw [List.map_eq_nil_iff] at h
    rw [h] at hkeyin
    simp at hkeyin
  have hloop := presignLoop_ok (UploadImage w bucket key c c.length).world.env bucket
    (w.sign bucket) _ hsign2 none [Event.listObjects bucket]
  simp only [hne, if_false] at hloop
  refine ⟨_, hlisting, ?_, ?_, ?_, ?_, ?_, ?_⟩
  · unfold GetPresignedURLs
    rw [hlisting, hloop]
  · unfold GetPresignedURLs
    rw [hlisting, hloop]
    simp [descriptor, Function.comp]
  · rw [hcount key, if_pos hin]
  · intro k2 hk2 hslash hcontent
    rw [hcount k2, if_pos]
    rw [List.mem_map]
    have hold : k2 ∈ ((w.objects bucket).getD []).map Prod.fst := by
      rw [← findObject_ne_none_iff]
      unfold World.content at hcontent
      cases ho : w.objects bucket with
      | none => simp [ho] at hcontent
      | some objs => simpa [ho] using hcontent
    rw [List.mem_map] at hold
    obtain ⟨o, ho, rfl⟩ := hold
    exact ⟨o, by simp [putIn, ho, hk2], listedAs_of_not_mem o.1 hslash⟩
  · unfold World.listing
    exact ((UploadImage w bucket key c c.length).world.order_perm _).nodup_iff.2
      (List.nodup_dedup _)
  · intro k2 hk2
    unfold World.listing at hk2
    rw [((UploadImage w bucket key c c.length).world.order_perm _).mem_iff, List.mem_dedup,
      List.mem_map] at hk2
    obtain ⟨o, ho, rfl⟩ := hk2
    refine ⟨o.1, ?_, rfl⟩
    simp only [World.content, hobj]
    rw [findObject_ne_none_iff]
    exact List.mem_map_of_mem _ ho

/-- C7 (amended), an instance: `a.jpg`, already in the bucket `photos` of `worldPhotos`, is
uploaded again; the listing that follows has one URL for it and one for `b.png`. -/
theorem GetPresignedURLs_after_upload_witness :
    (UploadImage worldPhotos "photos" "a.jpg" [9] ([9] : Bytes).length).err = none ∧
    ∃ keys : List String,
      (GetPresignedURLs
        (UploadImage worldPhotos "photos" "a.jpg" [9] ([9] : Bytes).length).world.env "photos").urls =
        some (keys.map (worldPhotos.sign "photos")) ∧
      keys.count "a.jpg" = 1 ∧ keys.count "b.png" = 1 :=
  ⟨by decide,
   (GetPresignedURLs_after_upload worldPhotos "photos" "a.jpg" [9] (by decide) rfl
      (by decide) (by decide)).elim
     fun keys h => ⟨keys, h.2.2.1, h.2.2.2.1,
       h.2.2.2.2.1 "b.png" (by decide) (by decide) (by decide)⟩⟩

/-! ## The claims on the handlers -/

/-- C8, the failing input: the bucket `photos` of `envEmpty` exists and its listing succeeds
with no object; `GetPresignedURLs` returns the nil slice and the handler of `GET /images`
answers 200 with the member `images` set to `null`, not to the empty array. -/
theorem getImages_empty_bucket :
    envEmpty.listObjects "photos" = [] ∧
    (GetPresignedURLs envEmpty "photos").err = none ∧
    (GetPresignedURLs envEmpty "photos").urls = none ∧
    (getImages envEmpty "photos").status = 200 ∧
    (getImages envEmpty "photos").body = some (.json (.object [("images", .null)])) ∧
    (getImages envEmpty "photos").body ≠ some (.json (.object [("images", .array [])])) := by
  refine ⟨by decide, by decide, by decide, rfl, rfl, ?_⟩
  simp [getImages, GetPresignedURLs, presignLoop, envEmpty, marshalStrings]

/-- The response of `GET /images`: 500 with the message of the error when
`GetPresignedURLs` fails; otherwise 200 with the URLs signed for the listed keys as the
member `images`, in listing order, when there is at least one. -/
theorem getImages_response (env : Env) (bucket : String) :
    (∀ err, (GetPresignedURLs env bucket).err = some err →
      (getImages env bucket).status = 500 ∧
      (getImages env bucket).body = some (.json (.object [("error", .string err.Error)]))) ∧
    (∀ f : String → String, env.listObjects bucket ≠ [] →
      (∀ object ∈ env.listObjects bucket,
        env.presignedGetObject bucket object.Key = .ok (f object.Key)) →
      (getImages env bucket).status = 200 ∧
      getHeader (getImages env bucket).header "Content-Type" = some "application/json" ∧
      (getImages env bucket).body = some (.json (.object [("images",
        .array ((env.listObjects bucket).map fun object => .string (f object.Key)))]))) := by
  constructor
  · intro err herr
    simp [getImages, herr, ginJSON, StatusInternalServerError, errorBody]
  · intro f hne hsign
    have h := presignLoop_ok env bucket f (env.listObjects bucket) hsign none
      [Event.listObjects bucket]
    simp only [hne, if_false] at h
    unfold getImages GetPresignedURLs
    rw [h]
    refine ⟨rfl, rfl, ?_⟩
    simp [marshalStrings, Function.comp]

/-- C9: when `DownloadAllImages` returns an error (that of a missing bucket included) the
handler of `GET /download` answers 500 with the JSON body that holds the message of the
error under `error`, and no bytes of a buffer; otherwise it answers 200 with the content
type `application/zip`, the disposition `attachment; filename=images.zip` and the returned
buffer as body. -/
theorem getDownload_response (env : Env) (bucket : String) :
    (∀ err, (DownloadAllImages env bucket).err = some err →
      (getDownload env bucket).status = 500 ∧
      (getDownload env bucket).body = some (.json (.object [("error", .string err.Error)])) ∧
      ∀ b, (getDownload env bucket).body ≠ some (.data b)) ∧
    ((DownloadAllImages env bucket).err = none →
      ∃ zipBuffer, (DownloadAllImages env bucket).buffer = some zipBuffer ∧
        (getDownload env bucket).status = 200 ∧
        getHeader (getDownload env bucket).header "Content-Type" = some "application/zip" ∧
        getHeader (getDownload env bucket).header "Content-Disposition" =
          some "attachment; filename=images.zip" ∧
        (getDownload env bucket).body = some (.data zipBuffer)) := by
  constructor
  · intro err herr
    simp [getDownload, herr, ginJSON, StatusInternalServerError, errorBody]
  · intro hok
    obtain ⟨hex, fr, hloop⟩ := DownloadAllImages_loop_of_buffer env bucket (Or.inr hok)
    have h := DownloadAllImages_eq_of_loop env bucket fr hex hloop
    refine ⟨_, by rw [h], ?_⟩
    unfold getDownload
    rw [h]
    exact ⟨rfl, rfl, rfl, rfl⟩

/-- C9, instances: the missing bucket `videos` and the bucket `photos` of `envPhotos`. -/
theorem getDownload_response_witness :
    ((getDownload envPhotos "videos").status = 500 ∧
     (getDownload envPhotos "videos").body =
       some (.json (.object [("error", .string "bucket not found")]))) ∧
    ((getDownload envPhotos "photos").status = 200 ∧
     (getDownload envPhotos "photos").body =
       some (.data { entries := [{ name := "a.jpg", data := [1, 2] },
                                 { name := "b.png", data := [3] }],
                     finalized := true })) :=
  ⟨⟨((getDownload_response envPhotos "videos").1 (.errorf "bucket not found") (by decide)).1,
    ((getDownload_response envPhotos "videos").1 (.errorf "bucket not found") (by decide)).2.1⟩,
   ((getDownload_response envPhotos "photos").2 (by decide)).elim fun zipBuffer h =>
     ⟨h.2.1, by
       have hb : (DownloadAllImages envPhotos "photos").buffer =
           some { entries := [{ name := "a.jpg", data := [1, 2] },
                              { name := "b.png", data := [3] }],
                  finalized := true } := by decide
       rw [hb] at h
       have h1 := h.1
       injection h1 with h1
       rw [h.2.2.2.2, ← h1]⟩⟩

end HappyShot
